import Mathlib

/-!
Verification development for the anonWallet ERC-4337 passkey-wallet pipeline.

This file gives a shallow embedding, in Lean, of the pure core of the
transaction pipeline: the base64 / base64url codec used for WebAuthn
challenges and assertion fields, the DER parser for P-256 ECDSA signatures,
the ABI encoding of the on-chain signature struct, the UserOperation builder
with its gas-estimation fallback, and the signing step.  Byte strings are
modelled as lists of naturals (each below 256 where it matters), JS strings
as lists of characters wrapped in Lean strings, JS bigints as naturals, and
fallible operations (thrown exceptions) as Option / Except results.

Sources embedded (TypeScript):
- src/utils/base64 web variant (atob-based base64url decoding),
- the smart-wallet utility module (getGasPrices, generateInitCode,
  generateTransferCallData, gas estimation plumbing),
- src/utils/userOperationBuilder.ts (buildUserOperation,
  signAndSubmitUserOperation, formatWebAuthnSignature),
- src/services/wallet/SmartWalletService.ts (buildUserOp,
  signUserOperation, formatWebAuthnSignature).
-/

namespace AnonWallet

/-! ## Byte-level primitives -/

/-- Big-endian byte encoding: the k-byte big-endian representation of n
(call sites guarantee n fits; viem toHex with a size and encodePacked both
produce exactly this byte layout). -/
def beBytes : Nat → Nat → List Nat
  | 0, _ => []
  | k + 1, n => beBytes k (n / 256) ++ [n % 256]

/-- Big-endian bytes to natural number (the b2n of the DER parser). -/
def beToNat (bs : List Nat) : Nat := bs.foldl (fun a b => a * 256 + b) 0

theorem beBytes_length (k n : Nat) : (beBytes k n).length = k := by
  induction k generalizing n with
  | zero => rfl
  | succ k ih => simp [beBytes, ih]

theorem beToNat_append_singleton (l : List Nat) (x : Nat) :
    beToNat (l ++ [x]) = beToNat l * 256 + x := by
  simp [beToNat, List.foldl_append]

theorem beToNat_beBytes (k n : Nat) (h : n < 256 ^ k) :
    beToNat (beBytes k n) = n := by
  induction k generalizing n with
  | zero =>
    interval_cases n
    rfl
  | succ k ih =>
    have hdiv : n / 256 < 256 ^ k := by
      apply Nat.div_lt_of_lt_mul
      rw [pow_succ] at h
      omega
    rw [beBytes, beToNat_append_singleton, ih _ hdiv]
    omega

/-! ## Base64 and base64url

The source encodes the WebAuthn challenge with the platform btoa builtin
followed by the three replaces of signAndSubmitUserOperation
(plus to minus, slash to underscore, strip padding), and decodes assertion
fields with fromBase64urlToBytes from the web base64 utility module, which
restores padding, swaps the url-safe characters back and calls atob.
btoa and atob are modelled by standard (forgiving) base64 over byte lists. -/

/-- The standard base64 alphabet, as an explicit character list (index i
holds the character encoding the sextet i). -/
def b64Alphabet : List Char :=
  "ABCDEFGHIJKLMNOPQRSTUVWXYZabcdefghijklmnopqrstuvwxyz0123456789+/".data

/-- Character for a sextet. -/
def encodeB64Char (n : Nat) : Char := b64Alphabet.getD n 'A'

/-- Sextet for a character: its index in the alphabet, none when the
character is not in the alphabet (atob throws there). -/
def decodeB64Char (c : Char) : Option Nat := b64Alphabet.findIdx? (· == c)

/-- Bytes to 6-bit groups, as in standard base64: 3 bytes become 4 sextets,
a 1-byte leftover becomes 2 sextets, a 2-byte leftover becomes 3. -/
def toSextets : List Nat → List Nat
  | [] => []
  | [a] => [a / 4, a % 4 * 16]
  | [a, b] => [a / 4, a % 4 * 16 + b / 16, b % 16 * 4]
  | a :: b :: c :: rest =>
    a / 4 :: (a % 4 * 16 + b / 16) :: (b % 16 * 4 + c / 64) :: c % 64 :: toSextets rest

/-- 6-bit groups back to bytes: 4 sextets become 3 bytes; leftovers of 2 or
3 sextets yield 1 or 2 bytes with the low filler bits discarded, exactly as
forgiving-base64 prescribes. -/
def fromSextets : List Nat → List Nat
  | w :: x :: y :: z :: rest =>
    (w * 4 + x / 16) :: (x % 16 * 16 + y / 4) :: (y % 4 * 64 + z) :: fromSextets rest
  | [w, x] => [w * 4 + x / 16]
  | [w, x, y] => [w * 4 + x / 16, x % 16 * 16 + y / 4]
  | _ => []

/-- Number of trailing padding characters btoa appends. -/
def b64PadCount (n : Nat) : Nat := (3 - n % 3) % 3

/-- btoa on a byte list: alphabet characters for the sextets, plus padding. -/
def btoaChars (bs : List Nat) : List Char :=
  (toSextets bs).map encodeB64Char ++ List.replicate (b64PadCount bs.length) '='

/-- The two character replaces of the encoding direction (plus to minus,
slash to underscore); one pass over the string is equivalent to the two
sequential global replaces of the source because their domains and images
do not overlap. -/
def swapToUrl (c : Char) : Char :=
  if c = '+' then '-' else if c = '/' then '_' else c

/-- The two character replaces of the decoding direction (minus to plus,
underscore to slash), from base64urlToBase64. -/
def swapFromUrl (c : Char) : Char :=
  if c = '-' then '+' else if c = '_' then '/' else c

/-- Challenge-style base64url encoding, as in signAndSubmitUserOperation:
btoa, then replace plus by minus, slash by underscore, and remove every
equals sign. -/
def toBase64UrlChars (bs : List Nat) : List Char :=
  ((btoaChars bs).map swapToUrl).filter (fun c => c != '=')

/-- String form of the challenge encoding. -/
def toBase64Url (bs : List Nat) : String := String.mk (toBase64UrlChars bs)

/-- base64urlToBase64 from the base64 utility module: swap the url-safe
characters back and append padding up to a multiple of four. -/
def base64urlToBase64Chars (cs : List Char) : List Char :=
  let t := cs.map swapFromUrl
  t ++ List.replicate ((4 - t.length % 4) % 4) '='

/-- Whitespace removed by the forgiving-base64 decode of atob. -/
def isB64Whitespace (c : Char) : Bool :=
  c = ' ' || c = '\t' || c = '\n' || c = '\x0c' || c = '\r'

/-- Removal of one or two trailing padding characters, phrased on a
reversed character list. -/
def dropPadRev (cs : List Char) : List Char :=
  match cs with
  | c1 :: c2 :: r => if c1 = '=' then (if c2 = '=' then r else c2 :: r) else cs
  | [c1] => if c1 = '=' then [] else [c1]
  | [] => []

/-- Decoding a character list sextet by sextet; none as soon as one
character is outside the alphabet (atob throws InvalidCharacterError). -/
def decodeB64Chars : List Char → Option (List Nat)
  | [] => some []
  | c :: r =>
    match decodeB64Char c, decodeB64Chars r with
    | some v, some vs => some (v :: vs)
    | _, _ => none

/-- atob on a character list, following forgiving-base64: strip ASCII
whitespace; when the length is a multiple of four remove up to two trailing
padding characters; fail when the remaining length is 1 mod 4 or when a
character is outside the alphabet; then reassemble bytes from sextets. -/
def atobChars (cs0 : List Char) : Option (List Nat) :=
  let cs1 := cs0.filter (fun c => !isB64Whitespace c)
  let cs := if cs1.length % 4 = 0 then (dropPadRev cs1.reverse).reverse else cs1
  if cs.length % 4 = 1 then none
  else (decodeB64Chars cs).map fromSextets

/-- fromBase64urlToBytes from the web base64 utility module:
base64urlToBase64 then atob. -/
def fromBase64urlToBytes (s : String) : Option (List Nat) :=
  atobChars (base64urlToBase64Chars s.data)

/-! ## Hex strings

signAndSubmitUserOperation turns the packed challenge message (a viem hex
string) back into bytes by matching pairs of hex digits; we model the hex
string without its 0x prefix, which the source slices off. -/

/-- Lowercase hex digit characters (viem toHex produces lowercase). -/
def hexDigits : List Char := "0123456789abcdef".data

/-- Character of a hex digit value. -/
def hexDigitChar (n : Nat) : Char := hexDigits.getD n '0'

/-- Value of a hex digit character (parseInt on a valid digit; call sites
only feed valid lowercase digits). -/
def hexCharVal (c : Char) : Nat := (hexDigits.findIdx? (· == c)).getD 0

/-- Hex rendering of a byte list, two digits per byte. -/
def bytesToHexChars : List Nat → List Char
  | [] => []
  | b :: r => hexDigitChar (b / 16) :: hexDigitChar (b % 16) :: bytesToHexChars r

/-- Parsing a hex character list two digits at a time, as the regex match
over pairs followed by parseInt base 16. -/
def hexPairsToBytes : List Char → List Nat
  | c1 :: c2 :: r => (hexCharVal c1 * 16 + hexCharVal c2) :: hexPairsToBytes r
  | _ => []

/-! ## The WebAuthn challenge

The contract validates against abi.encodePacked(version, validUntil,
userOpHash); the source builds that packed message with viem encodePacked
over uint8, uint48 and bytes32 (one, six and thirty-two big-endian bytes),
renders it as hex, re-parses the hex pairs into bytes, and base64url
encodes the bytes via btoa plus the three replaces. -/

/-- encodePacked over a uint8, a uint48 and a bytes32 value: packed
big-endian bytes with no padding between fields. -/
def encodePackedU8U48B32 (version validUntil : Nat) (userOpHash : List Nat) :
    List Nat :=
  beBytes 1 version ++ beBytes 6 validUntil ++ userOpHash

/-- The challenge string handed to the passkey prompt, from
signAndSubmitUserOperation and signUserOperation (version 1, validUntil 0). -/
def challengeOfUserOpHash (userOpHash : List Nat) : String :=
  let messageToVerify := bytesToHexChars (encodePackedU8U48B32 1 0 userOpHash)
  let challengeBytes := hexPairsToBytes messageToVerify
  toBase64Url challengeBytes

/-- Base64url encoding as the specification words it: standard base64 with
every padding character stripped, then plus swapped for minus and slash for
underscore. -/
def specBase64Url (bs : List Nat) : String :=
  String.mk (((btoaChars bs).filter (fun c => c != '=')).map swapToUrl)

/-! ## Substring search in clientDataJSON

The decoded clientDataJSON is modelled by its byte sequence; the two
needles are ASCII, so byte-level containment coincides with the string
search of the source on well-formed data. -/

/-- Byte sequence of the literal substring the formatter looks for to
locate the challenge field. -/
def challengeNeedle : List Nat := "\"challenge\":\"".data.map Char.toNat

/-- Byte sequence of the literal substring the formatter looks for to
locate the response type. -/
def responseTypeNeedle : List Nat := "\"type\":\"webauthn.get\"".data.map Char.toNat

/-- First index at which the needle occurs in the haystack, none when it
does not occur (String.prototype.indexOf returning minus one). -/
def indexOfSub (hay needle : List Nat) : Option Nat :=
  if needle.isPrefixOf hay then some 0
  else
    match hay with
    | [] => none
    | _ :: t => (indexOfSub t needle).map (· + 1)

/-- indexOf with the JS convention: minus one when absent. -/
def jsIndexOf (hay needle : List Nat) : Int :=
  match indexOfSub hay needle with
  | none => -1
  | some i => i

/-! ## DER parsing of the P-256 ECDSA signature

p256.Signature.fromBytes with the der format: a strict DER SEQUENCE of two
INTEGERs, rejecting a wrong tag, a wrong length, a negative integer (high
bit set without a leading zero byte) and an unnecessary leading zero; the
resulting r and s must lie in the interval from 1 to the group order minus
one. -/

/-- Order of the P-256 group. -/
def p256n : Nat :=
  0xFFFFFFFF00000000FFFFFFFFFFFFFFFFBCE6FAADA7179E84F3B9CAC2FC632551

/-- One DER INTEGER: tag 0x02, one length byte, content bytes; returns the
value and the remaining input. -/
def parseDerInt (data : List Nat) : Option (Nat × List Nat) :=
  match data with
  | t :: len :: rest =>
    if t ≠ 2 ∨ len = 0 then none
    else
      let res := rest.take len
      if res.length ≠ len then none
      else
        match res with
        | [] => none
        | b :: tail =>
          if 128 ≤ b then none
          else if b = 0 ∧ tail.headD 0 < 128 then none
          else some (beToNat res, rest.drop len)
  | _ => none

/-- The full DER ECDSA signature: SEQUENCE tag 0x30, a length byte that
must cover the rest exactly, two INTEGERs, nothing left over, then the
range checks of the Signature constructor. -/
def parseDER (data : List Nat) : Option (Nat × Nat) :=
  match data with
  | t :: l :: rest =>
    if t ≠ 0x30 then none
    else if l ≠ rest.length then none
    else
      match parseDerInt rest with
      | none => none
      | some (r, rest1) =>
        match parseDerInt rest1 with
        | none => none
        | some (s, rest2) =>
          if rest2 ≠ [] then none
          else if r = 0 ∨ p256n ≤ r ∨ s = 0 ∨ p256n ≤ s then none
          else some (r, s)
  | _ => none

/-! ## ABI encoding of the signature struct

encodeAbiParameters with the single tuple (authenticatorData bytes,
clientDataJSON string, challengeLocation uint256, responseTypeLocation
uint256, r bytes32, s bytes32): a 32-byte offset word to the dynamic
tuple, six head words (the two dynamic members as offsets from the start
of the tuple body), then the two length-prefixed, 32-byte padded tails. -/

/-- Right padding to a multiple of 32 bytes. -/
def padRight32 (bs : List Nat) : List Nat :=
  bs ++ List.replicate ((32 - bs.length % 32) % 32) 0

/-- Tail of a dynamic bytes or string value: length word then padded data. -/
def abiDynBytes (bs : List Nat) : List Nat := beBytes 32 bs.length ++ padRight32 bs

/-- The tuple encoding with all six slots supplied as 32-byte words where
static (locations, r, s) and as raw byte lists where dynamic. -/
def abiEncodeCredsWords (auth cdj cl rt r32 s32 : List Nat) : List Nat :=
  let authTail := abiDynBytes auth
  let cdjTail := abiDynBytes cdj
  beBytes 32 32 ++
  beBytes 32 192 ++ beBytes 32 (192 + authTail.length) ++
  cl ++ rt ++ r32 ++ s32 ++
  authTail ++ cdjTail

/-- The credentials record built by the formatters before ABI encoding. -/
structure Creds where
  authenticatorData : List Nat
  clientDataJSON : List Nat
  challengeLocation : Nat
  responseTypeLocation : Nat
  r : Nat
  s : Nat
  deriving DecidableEq

/-- ABI encoding of a credentials record. -/
def abiEncodeCreds (c : Creds) : List Nat :=
  abiEncodeCredsWords c.authenticatorData c.clientDataJSON
    (beBytes 32 c.challengeLocation) (beBytes 32 c.responseTypeLocation)
    (beBytes 32 c.r) (beBytes 32 c.s)

/-- encodePacked over uint8, uint48 and a dynamic bytes value: one byte,
six big-endian bytes, then the raw payload, with no padding. -/
def encodePackedU8U48Bytes (version validUntil : Nat) (payload : List Nat) :
    List Nat :=
  beBytes 1 version ++ beBytes 6 validUntil ++ payload

/-! ## The signature formatters -/

/-- Failure modes of the two formatters.  badBase64 models an atob throw,
challengeNotFound and responseTypeNotFound the two distinct errors thrown
by formatWebAuthnSignature in userOperationBuilder.ts, badDerSignature a
p256 parse throw, and integerOutOfRange the viem error raised when a
negative location reaches a uint256 slot. -/
inductive FormatError where
  | badBase64
  | challengeNotFound
  | responseTypeNotFound
  | badDerSignature
  | integerOutOfRange
  deriving DecidableEq

/-- A WebAuthn assertion response: the three base64url-encoded fields the
formatters consume. -/
structure Assertion where
  authenticatorData : String
  clientDataJSON : String
  signature : String
  deriving DecidableEq

/-- Steps 1 to 4 of formatWebAuthnSignature in userOperationBuilder.ts:
decode the three base64url fields, search the two literal substrings
(failing with the two distinct errors when absent, challenge checked
first), and parse the DER signature into r and s. -/
def decodeAssertion (a : Assertion) : Except FormatError Creds :=
  match fromBase64urlToBytes a.authenticatorData with
  | none => .error .badBase64
  | some authBytes =>
    match fromBase64urlToBytes a.clientDataJSON with
    | none => .error .badBase64
    | some cdjBytes =>
      match fromBase64urlToBytes a.signature with
      | none => .error .badBase64
      | some sigBytes =>
        match indexOfSub cdjBytes challengeNeedle with
        | none => .error .challengeNotFound
        | some challengeLocation =>
          match indexOfSub cdjBytes responseTypeNeedle with
          | none => .error .responseTypeNotFound
          | some responseTypeLocation =>
            match parseDER sigBytes with
            | none => .error .badDerSignature
            | some (r, s) =>
              .ok { authenticatorData := authBytes, clientDataJSON := cdjBytes,
                    challengeLocation, responseTypeLocation, r, s }

/-- formatWebAuthnSignature from userOperationBuilder.ts: decode the
assertion, ABI encode the credentials tuple, and prefix the packed version
byte (1) and validUntil (0, six bytes). -/
def formatWebAuthnSignature (a : Assertion) : Except FormatError (List Nat) :=
  (decodeAssertion a).map fun c => encodePackedU8U48Bytes 1 0 (abiEncodeCreds c)

/-- uint256 slot encoding of a JS number or bigint that may be negative:
viem raises an out-of-range error below zero or at 2 to the 256 and above. -/
def abiEncodeUint256OfInt (i : Int) : Except FormatError (List Nat) :=
  if i < 0 ∨ (2 : Int) ^ 256 ≤ i then .error .integerOutOfRange
  else .ok (beBytes 32 i.toNat)

/-- formatWebAuthnSignature from SmartWalletService.ts: same pipeline but
version and validUntil arrive as parameters and the two locations are used
without a minus-one check, so a missing substring only surfaces when the
negative location reaches its uint256 slot. -/
def swsFormatWebAuthnSignature (a : Assertion) (version validUntil : Nat) :
    Except FormatError (List Nat) :=
  match fromBase64urlToBytes a.authenticatorData,
        fromBase64urlToBytes a.clientDataJSON,
        fromBase64urlToBytes a.signature with
  | some authBytes, some cdjBytes, some sigBytes =>
    let challengeLocation := jsIndexOf cdjBytes challengeNeedle
    let responseTypeLocation := jsIndexOf cdjBytes responseTypeNeedle
    match parseDER sigBytes with
    | none => .error .badDerSignature
    | some (r, s) =>
      match abiEncodeUint256OfInt challengeLocation,
            abiEncodeUint256OfInt responseTypeLocation with
      | .ok clBytes, .ok rtBytes =>
        .ok (encodePackedU8U48Bytes version validUntil
          (abiEncodeCredsWords authBytes cdjBytes clBytes rtBytes
            (beBytes 32 r) (beBytes 32 s)))
      | .error e, _ => .error e
      | _, .error e => .error e
  | _, _, _ => .error .badBase64

/-! ## The UserOperation builder -/

/-- The in-memory UserOperation record.  Byte-string fields are byte
lists, numeric fields naturals. -/
structure UserOperation where
  sender : List Nat
  nonce : Nat
  initCode : List Nat
  callData : List Nat
  callGasLimit : Nat
  verificationGasLimit : Nat
  preVerificationGas : Nat
  maxFeePerGas : Nat
  maxPriorityFeePerGas : Nat
  paymasterAndData : List Nat
  signature : List Nat
  deriving DecidableEq

/-- The three gas fields returned by eth_estimateUserOperationGas. -/
structure GasEstimateResult where
  callGasLimit : Nat
  verificationGasLimit : Nat
  preVerificationGas : Nat
  deriving DecidableEq

/-- The fields returned by pm_sponsorUserOperation. -/
structure SponsorshipResult where
  paymasterAndData : List Nat
  callGasLimit : Nat
  verificationGasLimit : Nat
  preVerificationGas : Nat
  deriving DecidableEq

/-- The JS logical-or fallback on an optional bigint: the default is used
both when the value is absent and when it is zero, because bigint zero is
falsy. -/
def jsOrDefault (x : Option Nat) (d : Nat) : Nat :=
  match x with
  | none => d
  | some v => if v = 0 then d else v

/-- parseGwei on an integral argument. -/
def parseGwei (n : Nat) : Nat := n * 1000000000

/-- getGasPrices from the smart-wallet utility module: the fee suggestion
of the chain with the 20 gwei and 1 gwei fallbacks applied through the JS
logical or.  The two optional arguments are the fee fields the chain
returned (none models an absent suggestion). -/
def getGasPrices (feeMaxFeePerGas feeMaxPriorityFeePerGas : Option Nat) :
    Nat × Nat :=
  (jsOrDefault feeMaxFeePerGas (parseGwei 20),
   jsOrDefault feeMaxPriorityFeePerGas (parseGwei 1))

/-- isWalletDeployed: the address has code exactly when getCode returned a
defined, non-empty byte string (0x is empty). -/
def isWalletDeployed (code : Option (List Nat)) : Bool :=
  match code with
  | none => false
  | some c => c ≠ []

/-- Modelled from the spec: the factory contract ABI fragment is not among
the sources (only its callers are), and the spec fixes initCode to the
factory address followed by the encoded createAccount call, an ABI call
being the 4-byte function selector followed by the encoded arguments.  The
selector is the first four bytes of the keccak-256 hash of the signature
createAccount(uint256[2]), matching the call with the two public-key
coordinates as a pair. -/
def createAccountSelector : List Nat := [0x63, 0xc8, 0xc5, 0x9b]

/-- Modelled from the spec: call data of createAccount(publicKey), selector
plus the two statically encoded uint256 coordinates. -/
def encodeCreateAccountCallData (pkx pky : Nat) : List Nat :=
  createAccountSelector ++ beBytes 32 pkx ++ beBytes 32 pky

/-- generateInitCode: factory address bytes concatenated with the
createAccount call data. -/
def generateInitCode (factoryAddress : List Nat) (pkx pky : Nat) : List Nat :=
  factoryAddress ++ encodeCreateAccountCallData pkx pky

/-- Selector of execute(address,uint256,bytes), the SimpleAccount
single-call entry point used by generateTransferCallData. -/
def executeSelector : List Nat := [0xb6, 0x1d, 0x27, 0xf6]

/-- generateTransferCallData: execute(to, amount, empty bytes); the three
head words are the address, the amount and the offset 0x60 of the empty
bytes tail, whose length word is zero. -/
def generateTransferCallData (dest amountWei : Nat) : List Nat :=
  executeSelector ++ beBytes 32 dest ++ beBytes 32 amountWei ++
  beBytes 32 96 ++ beBytes 32 0

/-- buildUserOperation from userOperationBuilder.ts as a function of its
external reads: the wallet address, the getCode result, the nonce, the two
chain fee fields, and the outcome of the Pimlico gas estimation (none
models the RPC call throwing).  The transfer amount is parseEther of
0.0001, the initial gas values are the inline constants, a successful
estimate is scaled by the 150 percent safety margin with integer division,
and a failed estimate falls back to the fixed constants, higher for an
undeployed wallet. -/
def buildUserOperation (factoryAddress : List Nat) (pkx pky relayerAddress : Nat)
    (walletAddress : List Nat) (code : Option (List Nat)) (nonce : Nat)
    (feeMaxFeePerGas feeMaxPriorityFeePerGas : Option Nat)
    (gasEstimate : Option GasEstimateResult) : UserOperation :=
  let deployed := isWalletDeployed code
  let initCode := if deployed then [] else generateInitCode factoryAddress pkx pky
  let callData := generateTransferCallData relayerAddress 100000000000000
  let fees := getGasPrices feeMaxFeePerGas feeMaxPriorityFeePerGas
  let base : UserOperation :=
    { sender := walletAddress, nonce, initCode, callData,
      callGasLimit := 100000,
      verificationGasLimit := if deployed then 150000 else 300000,
      preVerificationGas := 50000,
      maxFeePerGas := fees.1, maxPriorityFeePerGas := fees.2,
      paymasterAndData := [], signature := [] }
  match gasEstimate with
  | some g =>
    { base with
      callGasLimit := g.callGasLimit * 150 / 100,
      verificationGasLimit := g.verificationGasLimit * 150 / 100,
      preVerificationGas := g.preVerificationGas * 150 / 100 }
  | none =>
    { base with
      callGasLimit := 150000,
      verificationGasLimit := if deployed then 200000 else 400000,
      preVerificationGas := 75000 }

/-- buildUserOp from SmartWalletService.ts (deployed-wallet path) as a
function of its external reads.  The sponsorship argument is the result of
pm_sponsorUserOperation; none models the RPC call throwing, and the
function has no catch, so the throw propagates and no UserOperation is
produced.  On success the sponsorship fields overwrite the placeholders
verbatim. -/
def buildUserOp (walletAddress : List Nat) (dest amountWei nonce : Nat)
    (maxFeePerGas maxPriorityFeePerGas : Nat)
    (sponsorship : Option SponsorshipResult) : Option UserOperation :=
  let callData := generateTransferCallData dest amountWei
  match sponsorship with
  | none => none
  | some sp =>
    some { sender := walletAddress, nonce, initCode := [], callData,
           callGasLimit := sp.callGasLimit,
           verificationGasLimit := sp.verificationGasLimit,
           preVerificationGas := sp.preVerificationGas,
           maxFeePerGas, maxPriorityFeePerGas,
           paymasterAndData := sp.paymasterAndData, signature := [] }

/-- The signing step of signAndSubmitUserOperation and signUserOperation:
hash the finished UserOperation (hashFn models the getUserOpHash chain
read), build the challenge from that hash, obtain an assertion from the
authenticator (signFn models the passkey prompt), format it, and return
the operation with only the signature replaced. -/
def signUserOperationModel (hashFn : UserOperation → List Nat)
    (signFn : String → Assertion) (userOp : UserOperation) :
    Except FormatError UserOperation :=
  let userOpHash := hashFn userOp
  let challenge := challengeOfUserOpHash userOpHash
  let assertion := signFn challenge
  (decodeAssertion assertion).map fun c =>
    { userOp with signature := encodePackedU8U48Bytes 1 0 (abiEncodeCreds c) }

/-! ## Concrete fixtures

Concrete data used to evaluate the definitions at explicit inputs: a small
authenticatorData, a clientDataJSON in the key order the spec quotes, two
clientDataJSON variants each missing one of the needles, and a DER
signature whose r component carries the mandatory leading zero byte
(r = 0xF1, high bit set). -/

def sampleAuthBytes : List Nat := [1, 2, 3]

/-- UTF-8 bytes of a clientDataJSON holding both needles, type first. -/
def sampleCdjBytes : List Nat :=
  "\x7b\"type\":\"webauthn.get\",\"challenge\":\"QQ\"\x7d".data.map Char.toNat

/-- DER: SEQUENCE of INTEGER 0x00F1 (leading zero required) and INTEGER 1. -/
def sampleDerBytes : List Nat := [0x30, 0x07, 0x02, 0x02, 0x00, 0xF1, 0x02, 0x01, 0x01]

def sampleAssertion : Assertion :=
  { authenticatorData := toBase64Url sampleAuthBytes,
    clientDataJSON := toBase64Url sampleCdjBytes,
    signature := toBase64Url sampleDerBytes }

def sampleCreds : Creds :=
  { authenticatorData := sampleAuthBytes, clientDataJSON := sampleCdjBytes,
    challengeLocation := 23, responseTypeLocation := 1, r := 241, s := 1 }

/-- UTF-8 bytes of a clientDataJSON without the challenge needle. -/
def cdjMissingChallengeBytes : List Nat :=
  "\x7b\"type\":\"webauthn.get\"\x7d".data.map Char.toNat

/-- UTF-8 bytes of a clientDataJSON without the response-type needle. -/
def cdjMissingTypeBytes : List Nat :=
  "\x7b\"challenge\":\"QQ\"\x7d".data.map Char.toNat

def assertionMissingChallenge : Assertion :=
  { authenticatorData := toBase64Url sampleAuthBytes,
    clientDataJSON := toBase64Url cdjMissingChallengeBytes,
    signature := toBase64Url sampleDerBytes }

def assertionMissingType : Assertion :=
  { authenticatorData := toBase64Url sampleAuthBytes,
    clientDataJSON := toBase64Url cdjMissingTypeBytes,
    signature := toBase64Url sampleDerBytes }

def sampleUserOp : UserOperation :=
  { sender := [0xAA], nonce := 0, initCode := [], callData := [],
    callGasLimit := 1, verificationGasLimit := 2, preVerificationGas := 3,
    maxFeePerGas := 4, maxPriorityFeePerGas := 5,
    paymasterAndData := [], signature := [] }

def sampleSignedOp : UserOperation :=
  { sampleUserOp with
    signature := encodePackedU8U48Bytes 1 0 (abiEncodeCreds sampleCreds) }

/-! ## Round-trip lemmas for the base64 codec -/

theorem dec_enc : ∀ s, s < 64 → decodeB64Char (encodeB64Char s) = some s := by
  decide

theorem swap_round :
    ∀ s, s < 64 → swapFromUrl (swapToUrl (encodeB64Char s)) = encodeB64Char s := by
  decide

theorem swapped_enc_ne_pad : ∀ s, s < 64 → swapToUrl (encodeB64Char s) ≠ '=' := by
  decide

theorem enc_ne_pad : ∀ s, s < 64 → encodeB64Char s ≠ '=' := by
  decide

theorem enc_not_ws : ∀ s, s < 64 → isB64Whitespace (encodeB64Char s) = false := by
  decide

theorem toSextets_lt : ∀ (l : List Nat), (∀ x ∈ l, x < 256) → ∀ y ∈ toSextets l, y < 64
  | [], _, y, hy => by simp [toSextets] at hy
  | [a], h, y, hy => by
    have ha := h a (by simp)
    simp [toSextets] at hy
    rcases hy with rfl | rfl <;> omega
  | [a, b], h, y, hy => by
    have ha := h a (by simp)
    have hb := h b (by simp)
    simp [toSextets] at hy
    rcases hy with rfl | rfl | rfl <;> omega
  | a :: b :: c :: rest, h, y, hy => by
    have ha := h a (by simp)
    have hb := h b (by simp)
    have hc := h c (by simp)
    simp only [toSextets, List.mem_cons] at hy
    rcases hy with rfl | rfl | rfl | rfl | hy
    · omega
    · omega
    · omega
    · omega
    · exact toSextets_lt rest (fun x hx => h x (by simp [hx])) y hy

theorem fromSextets_toSextets :
    ∀ (l : List Nat), (∀ x ∈ l, x < 256) → fromSextets (toSextets l) = l
  | [], _ => rfl
  | [a], h => by
    have ha := h a (by simp)
    simp only [toSextets, fromSextets, List.cons.injEq, and_true]
    omega
  | [a, b], h => by
    have ha := h a (by simp)
    have hb := h b (by simp)
    simp only [toSextets, fromSextets, List.cons.injEq, and_true]
    omega
  | a :: b :: c :: rest, h => by
    have ha := h a (by simp)
    have hb := h b (by simp)
    have hc := h c (by simp)
    have ih := fromSextets_toSextets rest (fun x hx => h x (by simp [hx]))
    simp only [toSextets, fromSextets, ih, List.cons.injEq, and_true]
    omega

theorem toSextets_length_mod4 : ∀ l : List Nat, (toSextets l).length % 4 ≠ 1
  | [] => by simp [toSextets]
  | [a] => by simp [toSextets]
  | [a, b] => by simp [toSextets]
  | a :: b :: c :: rest => by
    have ih := toSextets_length_mod4 rest
    simp only [toSextets, List.length_cons]
    omega

theorem decodeB64Chars_map :
    ∀ (sx : List Nat), (∀ s ∈ sx, s < 64) →
      decodeB64Chars (sx.map encodeB64Char) = some sx
  | [], _ => rfl
  | s :: r, h => by
    have hs := dec_enc s (h s (by simp))
    have ih := decodeB64Chars_map r (fun x hx => h x (by simp [hx]))
    simp [decodeB64Chars, hs, ih]

theorem dropPadRev_cons_ne (c : Char) (t : List Char) (hc : c ≠ '=') :
    dropPadRev (c :: t) = c :: t := by
  cases t <;> simp [dropPadRev, hc]

theorem dropPadRev_one (c : Char) (t : List Char) (hc : c ≠ '=') :
    dropPadRev ('=' :: c :: t) = c :: t := by
  simp [dropPadRev, hc]

theorem dropPadRev_two (t : List Char) : dropPadRev ('=' :: '=' :: t) = t := by
  simp [dropPadRev]

/-- Appending at most two padding characters and then stripping trailing
padding is the identity on pad-free character lists. -/
theorem strip_restore (cs : List Char) (h : ∀ c ∈ cs, c ≠ '=') (q : Nat)
    (hq : q ≤ 2) :
    (dropPadRev ((cs ++ List.replicate q '=').reverse)).reverse = cs := by
  have hrev : ∀ c ∈ cs.reverse, c ≠ '=' := fun c hc => h c (List.mem_reverse.mp hc)
  rw [List.reverse_append, List.reverse_replicate]
  interval_cases q
  · cases hcs : cs.reverse with
    | nil =>
      have : cs = [] := by simpa using congrArg List.reverse hcs
      simp [this, dropPadRev]
    | cons c t =>
      have hc : c ≠ '=' := hrev c (by rw [hcs]; simp)
      simp only [List.replicate, List.nil_append, hcs, dropPadRev_cons_ne c t hc]
      rw [← hcs, List.reverse_reverse]
  · cases hcs : cs.reverse with
    | nil =>
      have : cs = [] := by simpa using congrArg List.reverse hcs
      simp [this, dropPadRev]
    | cons c t =>
      have hc : c ≠ '=' := hrev c (by rw [hcs]; simp)
      simp only [List.replicate, List.nil_append, List.singleton_append, hcs,
        dropPadRev_one c t hc]
      rw [← hcs, List.reverse_reverse]
  · have : List.replicate 2 '=' ++ cs.reverse = '=' :: '=' :: cs.reverse := by
      simp [List.replicate]
    rw [this, dropPadRev_two, List.reverse_reverse]

/-- The challenge-style encoding of a byte list is exactly the swapped
alphabet characters of its sextets: the filter only removes the padding. -/
theorem toBase64UrlChars_eq (b : List Nat) (hb : ∀ x ∈ b, x < 256) :
    toBase64UrlChars b = (toSextets b).map (fun s => swapToUrl (encodeB64Char s)) := by
  unfold toBase64UrlChars btoaChars
  rw [List.map_append, List.map_map, List.filter_append]
  have h1 : ((toSextets b).map (swapToUrl ∘ encodeB64Char)).filter (fun c => c != '=')
      = (toSextets b).map (swapToUrl ∘ encodeB64Char) := by
    rw [List.filter_eq_self]
    intro c hc
    obtain ⟨s, hs, rfl⟩ := List.mem_map.mp hc
    simpa using swapped_enc_ne_pad s (toSextets_lt b hb s hs)
  have h2 : ((List.replicate (b64PadCount b.length) '=').map swapToUrl).filter
      (fun c => c != '=') = [] := by
    simp [swapToUrl, List.filter_eq_nil_iff]
  rw [h1, h2, List.append_nil]
  rfl

/-- Swapping back the url-safe characters recovers the plain base64
characters of the sextets. -/
theorem map_swapFrom_toBase64UrlChars (b : List Nat) (hb : ∀ x ∈ b, x < 256) :
    (toBase64UrlChars b).map swapFromUrl = (toSextets b).map encodeB64Char := by
  rw [toBase64UrlChars_eq b hb, List.map_map]
  exact List.map_congr_left fun s hs => swap_round s (toSextets_lt b hb s hs)

/-- atob inverts the encoding on alphabet characters followed by the
padding that base64urlToBase64 restores. -/
theorem atobChars_encoded (sx : List Nat) (hlt : ∀ s ∈ sx, s < 64)
    (hmod : sx.length % 4 ≠ 1) :
    atobChars (sx.map encodeB64Char ++
        List.replicate ((4 - (sx.map encodeB64Char).length % 4) % 4) '=')
      = some (fromSextets sx) := by
  set E := sx.map encodeB64Char with hE
  set q := (4 - E.length % 4) % 4 with hq
  have hElen : E.length = sx.length := by rw [hE, List.length_map]
  have hEne : ∀ c ∈ E, c ≠ '=' := by
    intro c hc
    obtain ⟨s, hs, rfl⟩ := List.mem_map.mp hc
    exact enc_ne_pad s (hlt s hs)
  have hws : (E ++ List.replicate q '=').filter (fun c => !isB64Whitespace c)
      = E ++ List.replicate q '=' := by
    rw [List.filter_eq_self]
    intro c hc
    rcases List.mem_append.mp hc with hc | hc
    · obtain ⟨s, hs, rfl⟩ := List.mem_map.mp hc
      simpa using enc_not_ws s (hlt s hs)
    · have hcq : c = '=' := List.eq_of_mem_replicate hc
      subst hcq
      decide
  have hlen : (E ++ List.replicate q '=').length % 4 = 0 := by
    rw [List.length_append, List.length_replicate, hq]
    omega
  have hq2 : q ≤ 2 := by
    rw [hq, hElen]
    omega
  unfold atobChars
  simp only [hws, hlen, if_pos, strip_restore E hEne q hq2]
  have hne1 : ¬ E.length % 4 = 1 := by
    rw [hElen]
    exact hmod
  rw [if_neg hne1, hE, decodeB64Chars_map sx hlt, Option.map_some']

/-- C10: for every byte array b, encoding b the way the challenge is
encoded (standard base64, padding stripped, plus and slash swapped for
minus and underscore) and then decoding with fromBase64urlToBytes, which
restores the padding before standard base64 decoding, returns exactly b. -/
theorem base64url_decode_encode_id (b : List Nat) (hb : ∀ x ∈ b, x < 256) :
    fromBase64urlToBytes (toBase64Url b) = some b := by
  have hlt := toSextets_lt b hb
  have h1 : (toBase64Url b).data = toBase64UrlChars b := rfl
  unfold fromBase64urlToBytes
  rw [h1]
  show atobChars ((toBase64UrlChars b).map swapFromUrl ++
    List.replicate ((4 - ((toBase64UrlChars b).map swapFromUrl).length % 4) % 4) '=')
      = some b
  rw [map_swapFrom_toBase64UrlChars b hb,
    atobChars_encoded (toSextets b) hlt (toSextets_length_mod4 b),
    fromSextets_toSextets b hb]

theorem base64url_decode_encode_id_witness :
    fromBase64urlToBytes (toBase64Url [0, 77, 255, 254]) = some [0, 77, 255, 254] :=
  base64url_decode_encode_id [0, 77, 255, 254] (by decide)

/-! ## Hex round trip and the challenge -/

theorem hexVal_hexDigit : ∀ d, d < 16 → hexCharVal (hexDigitChar d) = d := by
  decide

theorem hexPairs_bytesToHex :
    ∀ (bs : List Nat), (∀ x ∈ bs, x < 256) →
      hexPairsToBytes (bytesToHexChars bs) = bs
  | [], _ => rfl
  | b :: r, h => by
    have hb := h b (by simp)
    have ih := hexPairs_bytesToHex r (fun x hx => h x (by simp [hx]))
    have h1 := hexVal_hexDigit (b / 16) (by omega)
    have h2 := hexVal_hexDigit (b % 16) (by omega)
    simp only [bytesToHexChars, hexPairsToBytes, h1, h2, ih, List.cons.injEq,
      and_true]
    omega

/-- The swaps fix the padding character, so filtering the padding commutes
with the swaps. -/
theorem filter_pad_map_swap (l : List Char) :
    (l.map swapToUrl).filter (fun c => c != '=')
      = (l.filter (fun c => c != '=')).map swapToUrl := by
  rw [List.filter_map]
  congr 1
  apply List.filter_congr
  intro c _
  simp only [Function.comp_apply]
  by_cases h1 : c = '+'
  · subst h1
    decide
  · by_cases h2 : c = '/'
    · subst h2
      decide
    · simp [swapToUrl, h1, h2]

/-- C3: the challenge handed to the passkey prompt is the base64url
encoding, in the sense of the spec (standard base64, padding stripped,
plus and slash swapped), of the 39-byte packed concatenation of the
version byte 1, six zero validUntil bytes, and the 32-byte userOpHash. -/
theorem challenge_is_base64url_of_packed (h : List Nat) (hlen : h.length = 32)
    (hb : ∀ x ∈ h, x < 256) :
    challengeOfUserOpHash h = specBase64Url (1 :: (List.replicate 6 0 ++ h)) ∧
    encodePackedU8U48B32 1 0 h = 1 :: (List.replicate 6 0 ++ h) ∧
    (1 :: (List.replicate 6 0 ++ h)).length = 39 := by
  have hpack : encodePackedU8U48B32 1 0 h = 1 :: (List.replicate 6 0 ++ h) := rfl
  have hball : ∀ x ∈ 1 :: (List.replicate 6 0 ++ h), x < 256 := by
    intro x hx
    rcases List.mem_cons.mp hx with rfl | hx
    · omega
    · rcases List.mem_append.mp hx with hx | hx
      · have := List.eq_of_mem_replicate hx
        omega
      · exact hb x hx
  refine ⟨?_, hpack, by simp [hlen]⟩
  show toBase64Url (hexPairsToBytes (bytesToHexChars (encodePackedU8U48B32 1 0 h)))
      = specBase64Url (1 :: (List.replicate 6 0 ++ h))
  rw [hpack, hexPairs_bytesToHex _ hball]
  unfold toBase64Url toBase64UrlChars specBase64Url
  exact congrArg String.mk (filter_pad_map_swap (btoaChars (1 :: (List.replicate 6 0 ++ h))))

theorem challenge_is_base64url_of_packed_witness :
    challengeOfUserOpHash (List.replicate 32 0)
        = specBase64Url (1 :: (List.replicate 6 0 ++ List.replicate 32 0)) ∧
    encodePackedU8U48B32 1 0 (List.replicate 32 0)
        = 1 :: (List.replicate 6 0 ++ List.replicate 32 0) ∧
    (1 :: (List.replicate 6 0 ++ List.replicate 32 0)).length = 39 :=
  challenge_is_base64url_of_packed (List.replicate 32 0) (by simp)
    (fun x hx => by simp [List.eq_of_mem_replicate hx])

/-! ## The packed signature layout -/

/-- C1: for every assertion whose fields decode successfully, the
formatter output is the packed, unpadded concatenation of the version
byte, the six validUntil bytes and the ABI encoding of the credentials
tuple; with version 1 and validUntil 0 it always begins with the byte 1
followed by six zero bytes. -/
theorem signature_packed_layout (a : Assertion) (c : Creds)
    (h : decodeAssertion a = .ok c) :
    formatWebAuthnSignature a = .ok (1 :: (List.replicate 6 0 ++ abiEncodeCreds c)) ∧
    ∀ out, formatWebAuthnSignature a = .ok out →
      out.take 7 = [1, 0, 0, 0, 0, 0, 0] := by
  have hfmt : formatWebAuthnSignature a
      = .ok (1 :: (List.replicate 6 0 ++ abiEncodeCreds c)) := by
    unfold formatWebAuthnSignature
    rw [h]
    rfl
  refine ⟨hfmt, fun out hout => ?_⟩
  rw [hfmt] at hout
  injection hout with hout
  rw [← hout]
  rfl

theorem signature_packed_layout_witness :
    decodeAssertion sampleAssertion = .ok sampleCreds ∧
    formatWebAuthnSignature sampleAssertion
      = .ok (1 :: (List.replicate 6 0 ++ abiEncodeCreds sampleCreds)) :=
  ⟨by rfl, (signature_packed_layout sampleAssertion sampleCreds (by rfl)).1⟩

/-! ## r and s fit the 32-byte slots -/

theorem parseDER_bounds (data : List Nat) (r s : Nat)
    (h : parseDER data = some (r, s)) :
    0 < r ∧ r < p256n ∧ 0 < s ∧ s < p256n := by
  match data with
  | [] => simp [parseDER] at h
  | [t] => simp [parseDER] at h
  | t :: l :: rest =>
    simp only [parseDER] at h
    repeat' split at h
    all_goals simp_all
    omega

theorem p256n_lt : p256n < 256 ^ 32 := by
  norm_num [p256n]

/-- Inversion of a successful decode: the r and s of the credentials come
from a successful DER parse of the decoded signature field. -/
theorem decodeAssertion_der (a : Assertion) (c : Creds)
    (h : decodeAssertion a = .ok c) :
    ∃ sigBytes, fromBase64urlToBytes a.signature = some sigBytes ∧
      parseDER sigBytes = some (c.r, c.s) := by
  unfold decodeAssertion at h
  repeat' split at h
  all_goals simp_all
  cases h
  exact ⟨rfl, rfl⟩

/-- C2: for every assertion whose decode succeeds (hence whose DER
signature parses, leading zero handling included), the r and s slots the
formatter emits are exactly 32 bytes each and preserve the parsed integer
values; the slot is never 33 bytes. -/
theorem der_r_s_encoded_32_bytes (a : Assertion) (c : Creds)
    (h : decodeAssertion a = .ok c) :
    (beBytes 32 c.r).length = 32 ∧ beToNat (beBytes 32 c.r) = c.r ∧
    (beBytes 32 c.s).length = 32 ∧ beToNat (beBytes 32 c.s) = c.s := by
  obtain ⟨sigBytes, _, hder⟩ := decodeAssertion_der a c h
  obtain ⟨_, hr, _, hs⟩ := parseDER_bounds sigBytes c.r c.s hder
  have hrlt : c.r < 256 ^ 32 := lt_trans hr p256n_lt
  have hslt : c.s < 256 ^ 32 := lt_trans hs p256n_lt
  exact ⟨beBytes_length 32 c.r, beToNat_beBytes 32 c.r hrlt,
    beBytes_length 32 c.s, beToNat_beBytes 32 c.s hslt⟩

theorem der_r_s_encoded_32_bytes_witness :
    decodeAssertion sampleAssertion = .ok sampleCreds ∧
    sampleCreds.r = 241 ∧
    beBytes 32 sampleCreds.r = List.replicate 31 0 ++ [241] ∧
    ((beBytes 32 sampleCreds.r).length = 32 ∧
     beToNat (beBytes 32 sampleCreds.r) = sampleCreds.r ∧
     (beBytes 32 sampleCreds.s).length = 32 ∧
     beToNat (beBytes 32 sampleCreds.s) = sampleCreds.s) :=
  ⟨by rfl, rfl, by rfl,
   der_r_s_encoded_32_bytes sampleAssertion sampleCreds (by rfl)⟩

/-! ## Missing substrings -/

set_option maxRecDepth 4000 in
/-- C4 counterexample: on two assertions, one missing only the challenge
needle and one missing only the response-type needle, the
SmartWalletService formatter fails with the same integer-out-of-range
error for both, not with a distinct error per missing substring. -/
theorem sws_missing_substring_same_error :
    indexOfSub cdjMissingChallengeBytes challengeNeedle = none ∧
    indexOfSub cdjMissingChallengeBytes responseTypeNeedle = some 1 ∧
    indexOfSub cdjMissingTypeBytes responseTypeNeedle = none ∧
    indexOfSub cdjMissingTypeBytes challengeNeedle = some 1 ∧
    swsFormatWebAuthnSignature assertionMissingChallenge 1 0
      = .error .integerOutOfRange ∧
    swsFormatWebAuthnSignature assertionMissingType 1 0
      = .error .integerOutOfRange ∧
    swsFormatWebAuthnSignature assertionMissingChallenge 1 0
      = swsFormatWebAuthnSignature assertionMissingType 1 0 :=
  ⟨by decide, by decide, by decide, by decide, by rfl, by rfl, by rfl⟩

/-- C4 as amended: when a decoded clientDataJSON lacks a needle, the
userOperationBuilder formatter fails with a distinct error for each
missing substring (challenge checked first) and the SmartWalletService
formatter never produces a signature either, so no guessed offset is ever
used; but the latter surfaces the same encoding error for both. -/
theorem missing_substring_errors (a : Assertion) (auth cdj sig : List Nat)
    (ha : fromBase64urlToBytes a.authenticatorData = some auth)
    (hc : fromBase64urlToBytes a.clientDataJSON = some cdj)
    (hs : fromBase64urlToBytes a.signature = some sig) :
    (indexOfSub cdj challengeNeedle = none →
        formatWebAuthnSignature a = .error .challengeNotFound) ∧
    (indexOfSub cdj challengeNeedle ≠ none →
        indexOfSub cdj responseTypeNeedle = none →
        formatWebAuthnSignature a = .error .responseTypeNotFound) ∧
    ((indexOfSub cdj challengeNeedle = none ∨
        indexOfSub cdj responseTypeNeedle = none) →
        ∀ out, swsFormatWebAuthnSignature a 1 0 ≠ .ok out) := by
  refine ⟨?_, ?_, ?_⟩
  · intro h1
    simp [formatWebAuthnSignature, decodeAssertion, ha, hc, hs, h1, Except.map]
  · intro h1 h2
    rcases Option.ne_none_iff_exists'.mp h1 with ⟨i, hi⟩
    simp [formatWebAuthnSignature, decodeAssertion, ha, hc, hs, hi, h2, Except.map]
  · intro hmiss out hout
    simp only [swsFormatWebAuthnSignature, ha, hc, hs] at hout
    cases hder : parseDER sig with
    | none =>
      rw [hder] at hout
      simp at hout
    | some rs =>
      obtain ⟨r, s⟩ := rs
      rw [hder] at hout
      have hneg : abiEncodeUint256OfInt (-1) = .error .integerOutOfRange := rfl
      rcases hmiss with hm | hm
      · have hcl : jsIndexOf cdj challengeNeedle = -1 := by simp [jsIndexOf, hm]
        rw [hcl, hneg] at hout
        simp at hout
      · have hrt : jsIndexOf cdj responseTypeNeedle = -1 := by
          simp [jsIndexOf, hm]
        rw [hrt, hneg] at hout
        cases hcl : abiEncodeUint256OfInt (jsIndexOf cdj challengeNeedle) with
        | error e =>
          rw [hcl] at hout
          simp at hout
        | ok v =>
          rw [hcl] at hout
          simp at hout

theorem missing_substring_errors_witness :
    formatWebAuthnSignature assertionMissingChallenge
      = .error .challengeNotFound ∧
    formatWebAuthnSignature assertionMissingType
      = .error .responseTypeNotFound :=
  ⟨(missing_substring_errors assertionMissingChallenge sampleAuthBytes
      cdjMissingChallengeBytes sampleDerBytes (by rfl) (by rfl) (by rfl)).1
      (by decide),
   (missing_substring_errors assertionMissingType sampleAuthBytes
      cdjMissingTypeBytes sampleDerBytes (by rfl) (by rfl) (by rfl)).2.1
      (by decide) (by decide)⟩

/-! ## Gas price floors -/

/-- C5 counterexample: a zero fee suggestion from the chain is not
returned unchanged; the JS logical-or treats bigint zero as falsy and
substitutes the floors. -/
theorem getGasPrices_zero_suggestion_floored :
    getGasPrices (some 0) (some 0) ≠ (0, 0) ∧
    getGasPrices (some 0) (some 0) = (20000000000, 1000000000) :=
  ⟨by decide, by rfl⟩

/-- C5 as amended: an absent or zero fee suggestion is replaced by the
20 gwei and 1 gwei floors; a non-zero suggestion is returned unchanged. -/
theorem getGasPrices_floor_behavior (mf mp : Option Nat) :
    ((mf = none ∨ mf = some 0) → (getGasPrices mf mp).1 = 20000000000) ∧
    ((mp = none ∨ mp = some 0) → (getGasPrices mf mp).2 = 1000000000) ∧
    (∀ v, v ≠ 0 →
      (getGasPrices (some v) mp).1 = v ∧ (getGasPrices mf (some v)).2 = v) := by
  refine ⟨?_, ?_, ?_⟩
  · rintro (rfl | rfl) <;> rfl
  · rintro (rfl | rfl) <;> rfl
  · intro v hv
    constructor <;> simp [getGasPrices, jsOrDefault, hv]

theorem getGasPrices_floor_behavior_witness :
    (getGasPrices none (some 7)).1 = 20000000000 ∧
    (getGasPrices none (some 7)).2 = 7 :=
  ⟨(getGasPrices_floor_behavior none (some 7)).1 (Or.inl rfl),
   ((getGasPrices_floor_behavior none (some 7)).2.2 7 (by decide)).2⟩

/-! ## Gas estimation fallback and safety margin -/

/-- C6 counterexample: in the SmartWalletService build path a failed
sponsorship RPC propagates (none models the throw), so no UserOperation
with fallback gas constants results. -/
theorem sws_buildUserOp_propagates_sponsorship_error :
    buildUserOp [0xAB] 5 100000000000000 0 20000000000 1000000000 none = none :=
  rfl

/-- C6 as amended: in buildUserOperation a failed estimation RPC never
propagates; the operation carries the fixed fallback constants, all
non-zero, with the verification gas strictly higher for an undeployed
wallet; in the SmartWalletService buildUserOp path, by contrast, a failed
sponsorship RPC propagates and no UserOperation is produced. -/
theorem gas_fallback_constants (factoryAddress walletAddress : List Nat)
    (pkx pky relayer nonce dest amt mfN mpN : Nat)
    (codeU codeD : Option (List Nat)) (mf mp : Option Nat)
    (hU : isWalletDeployed codeU = false) (hD : isWalletDeployed codeD = true) :
    (buildUserOperation factoryAddress pkx pky relayer walletAddress codeU nonce mf mp none).callGasLimit = 150000 ∧
    (buildUserOperation factoryAddress pkx pky relayer walletAddress codeU nonce mf mp none).verificationGasLimit = 400000 ∧
    (buildUserOperation factoryAddress pkx pky relayer walletAddress codeU nonce mf mp none).preVerificationGas = 75000 ∧
    (buildUserOperation factoryAddress pkx pky relayer walletAddress codeD nonce mf mp none).callGasLimit = 150000 ∧
    (buildUserOperation factoryAddress pkx pky relayer walletAddress codeD nonce mf mp none).verificationGasLimit = 200000 ∧
    (buildUserOperation factoryAddress pkx pky relayer walletAddress codeD nonce mf mp none).preVerificationGas = 75000 ∧
    (buildUserOperation factoryAddress pkx pky relayer walletAddress codeD nonce mf mp none).verificationGasLimit
      < (buildUserOperation factoryAddress pkx pky relayer walletAddress codeU nonce mf mp none).verificationGasLimit ∧
    (buildUserOperation factoryAddress pkx pky relayer walletAddress codeU nonce mf mp none).callGasLimit ≠ 0 ∧
    (buildUserOperation factoryAddress pkx pky relayer walletAddress codeU nonce mf mp none).verificationGasLimit ≠ 0 ∧
    (buildUserOperation factoryAddress pkx pky relayer walletAddress codeU nonce mf mp none).preVerificationGas ≠ 0 ∧
    buildUserOp walletAddress dest amt nonce mfN mpN none = none := by
  simp [buildUserOperation, buildUserOp, hU, hD]

theorem gas_fallback_constants_witness :
    (buildUserOperation [] 0 0 0 [] none 0 none none none).verificationGasLimit = 400000 ∧
    (buildUserOperation [] 0 0 0 [] (some [1]) 0 none none none).verificationGasLimit = 200000 ∧
    buildUserOp [] 0 0 0 0 0 none = none := by
  have h := gas_fallback_constants [] [] 0 0 0 0 0 0 0 0 none (some [1]) none none
    rfl rfl
  exact ⟨h.2.1, h.2.2.2.2.1, h.2.2.2.2.2.2.2.2.2.2⟩

/-- C7: whenever the bundler estimate succeeds, each of the three gas
fields equals the estimate multiplied by 150 and integer-divided by 100. -/
theorem gas_estimate_safety_margin (factoryAddress walletAddress : List Nat)
    (pkx pky relayer nonce : Nat) (code : Option (List Nat)) (mf mp : Option Nat)
    (g : GasEstimateResult) :
    (buildUserOperation factoryAddress pkx pky relayer walletAddress code nonce mf mp (some g)).callGasLimit
      = g.callGasLimit * 150 / 100 ∧
    (buildUserOperation factoryAddress pkx pky relayer walletAddress code nonce mf mp (some g)).verificationGasLimit
      = g.verificationGasLimit * 150 / 100 ∧
    (buildUserOperation factoryAddress pkx pky relayer walletAddress code nonce mf mp (some g)).preVerificationGas
      = g.preVerificationGas * 150 / 100 :=
  ⟨rfl, rfl, rfl⟩

/-! ## initCode -/

/-- C8: the initCode of the built operation is empty exactly when the
wallet address already has contract code, and otherwise is the factory
address concatenated with the encoded createAccount call. -/
theorem initCode_empty_iff_deployed (factoryAddress walletAddress : List Nat)
    (pkx pky relayer nonce : Nat) (code : Option (List Nat)) (mf mp : Option Nat)
    (ge : Option GasEstimateResult) :
    ((buildUserOperation factoryAddress pkx pky relayer walletAddress code nonce mf mp ge).initCode = []
      ↔ isWalletDeployed code = true) ∧
    (isWalletDeployed code = false →
      (buildUserOperation factoryAddress pkx pky relayer walletAddress code nonce mf mp ge).initCode
        = factoryAddress ++ (createAccountSelector ++ beBytes 32 pkx ++ beBytes 32 pky)) := by
  have hinit : (buildUserOperation factoryAddress pkx pky relayer walletAddress code nonce mf mp ge).initCode
      = if isWalletDeployed code then []
        else generateInitCode factoryAddress pkx pky := by
    cases ge <;> rfl
  cases hdep : isWalletDeployed code with
  | true => simp [hinit, hdep]
  | false =>
    simp [hinit, hdep, generateInitCode, encodeCreateAccountCallData,
      createAccountSelector]

theorem initCode_empty_iff_deployed_witness :
    (buildUserOperation [0xAA] 5 7 9 [0xBB] none 0 none none none).initCode
      = [0xAA] ++ (createAccountSelector ++ beBytes 32 5 ++ beBytes 32 7) :=
  (initCode_empty_iff_deployed [0xAA] [0xBB] 5 7 9 0 none none none none).2 rfl

/-! ## The signing step is a frame on everything but the signature -/

/-- C9: a successful signing step changes only the signature field; all
other fields of the signed operation equal those of the input, and the
signature is derived from the hash of that very operation, so it is
computed only after every other field has its final value. -/
theorem signing_changes_only_signature (hashFn : UserOperation → List Nat)
    (signFn : String → Assertion) (userOp signed : UserOperation)
    (h : signUserOperationModel hashFn signFn userOp = .ok signed) :
    signed.sender = userOp.sender ∧ signed.nonce = userOp.nonce ∧
    signed.initCode = userOp.initCode ∧ signed.callData = userOp.callData ∧
    signed.callGasLimit = userOp.callGasLimit ∧
    signed.verificationGasLimit = userOp.verificationGasLimit ∧
    signed.preVerificationGas = userOp.preVerificationGas ∧
    signed.maxFeePerGas = userOp.maxFeePerGas ∧
    signed.maxPriorityFeePerGas = userOp.maxPriorityFeePerGas ∧
    signed.paymasterAndData = userOp.paymasterAndData ∧
    ∃ c, decodeAssertion (signFn (challengeOfUserOpHash (hashFn userOp))) = .ok c ∧
      signed.signature = encodePackedU8U48Bytes 1 0 (abiEncodeCreds c) := by
  replace h : Except.map
      (fun c => { userOp with
        signature := encodePackedU8U48Bytes 1 0 (abiEncodeCreds c) })
      (decodeAssertion (signFn (challengeOfUserOpHash (hashFn userOp))))
      = Except.ok signed := h
  cases hd : decodeAssertion (signFn (challengeOfUserOpHash (hashFn userOp))) with
  | error e =>
    rw [hd] at h
    simp [Except.map] at h
  | ok c =>
    rw [hd] at h
    simp only [Except.map, Except.ok.injEq] at h
    subst h
    exact ⟨rfl, rfl, rfl, rfl, rfl, rfl, rfl, rfl, rfl, rfl, c, rfl, rfl⟩

theorem signing_changes_only_signature_witness :
    sampleSignedOp.sender = sampleUserOp.sender ∧
    sampleSignedOp.nonce = sampleUserOp.nonce :=
  have h := signing_changes_only_signature (fun _ => List.replicate 32 0)
    (fun _ => sampleAssertion) sampleUserOp sampleSignedOp (by rfl)
  ⟨h.1, h.2.1⟩

end AnonWallet
